import Mathlib

/-!
Shallow embedding of the token-launch orchestrator contract (`src/src/lib.rs`)
and proofs of the specification claims about it.

Modelling conventions:
* `NearToken` amounts are `Nat` values in yoctoNEAR, with explicit `u128`
  overflow bounds where the source uses `checked_add` / `checked_sub`.
* `AccountId` is a `String`; the NEAR account-id well-formedness check that
  `str::parse::<AccountId>` performs is modelled by `isValidAccountId`.
* `LookupMap` is an association list with key type `String`.
* A contract panic aborts the transaction and rolls back all state, so every
  failing path of `launch_token` returns the original contract state together
  with an error value.
* The outbound promise chain is modelled by a `LaunchResult` record holding
  the data of the compiled workflow stages that the claims talk about.
* Case analysis in the embedded code is written with the combinators
  `boolCase`, `optCase` and `exceptCase` (definitionally equal to `match`),
  so that proofs reduce branches by rewriting with their equations.
-/

universe u v

namespace Launch

/-- Case analysis on a `Bool`, as a function. -/
def boolCase {β : Sort v} (b : Bool) (f t : β) : β :=
  match b with
  | false => f
  | true => t

@[simp] theorem boolCase_false {β : Sort v} (f t : β) : boolCase false f t = f := rfl

@[simp] theorem boolCase_true {β : Sort v} (f t : β) : boolCase true f t = t := rfl

/-- Case analysis on an `Option`, as a function. -/
def optCase {α : Type u} {β : Sort v} (o : Option α) (n : β) (s : α → β) : β :=
  match o with
  | none => n
  | some x => s x

@[simp] theorem optCase_none {α : Type u} {β : Sort v} (n : β) (s : α → β) :
    optCase none n s = n := rfl

@[simp] theorem optCase_some {α : Type u} {β : Sort v} (x : α) (n : β) (s : α → β) :
    optCase (some x) n s = s x := rfl

/-- Case analysis on an `Except`, as a function. -/
def exceptCase {ε α : Type u} {β : Sort v} (e : Except ε α) (f : ε → β) (g : α → β) : β :=
  match e with
  | .error x => f x
  | .ok y => g y

@[simp] theorem exceptCase_error {ε α : Type u} {β : Sort v} (x : ε) (f : ε → β)
    (g : α → β) : exceptCase (.error x) f g = f x := rfl

@[simp] theorem exceptCase_ok {ε α : Type u} {β : Sort v} (y : α) (f : ε → β)
    (g : α → β) : exceptCase (.ok y) f g = g y := rfl

/-- Maximum value of a Rust `u128` (the representation of `NearToken`). -/
def U128_MAX : Nat := 2 ^ 128 - 1

/-- `u128::checked_add`: `none` when the mathematical sum exceeds `u128::MAX`. -/
def checkedAdd (a b : Nat) : Option Nat :=
  if a + b ≤ U128_MAX then some (a + b) else none

/-- `u128::checked_sub`: `none` when the subtrahend exceeds the minuend. -/
def checkedSub (a b : Nat) : Option Nat :=
  if b ≤ a then some (a - b) else none

/-- Lookup in an association list, modelling `LookupMap::get`. -/
def alistLookup {α : Type} : List (String × α) → String → Option α
  | [], _ => none
  | (k1, v1) :: rest, k => if k1 = k then some v1 else alistLookup rest k

/-- Insert into an association list, modelling `LookupMap::insert`: returns the
previous value for the key (if any) together with the updated list. -/
def alistInsert {α : Type} : List (String × α) → String → α → Option α × List (String × α)
  | [], k, v => (none, [(k, v)])
  | (k1, v1) :: rest, k, v =>
    if k1 = k then (some v1, (k, v) :: rest)
    else
      let r := alistInsert rest k v
      (r.1, (k1, v1) :: r.2)

/-- Lowercasing of a string, modelling `str::to_lowercase` on ASCII symbols. -/
def lowerString (s : String) : String := ⟨s.data.map Char.toLower⟩

/-- Characters permitted as separators inside a NEAR account id. -/
def isSeparatorChar (ch : Char) : Bool := ch = '-' || ch = '_' || ch = '.'

/-- Characters permitted in a NEAR account id. -/
def isAccountChar (ch : Char) : Bool :=
  ('a' ≤ ch && ch ≤ 'z') || ('0' ≤ ch && ch ≤ '9') || isSeparatorChar ch

/-- No two adjacent separator characters. -/
def noAdjacentSeparators : List Char → Bool
  | [] => true
  | [_] => true
  | a :: b :: rest =>
    !(isSeparatorChar a && isSeparatorChar b) && noAdjacentSeparators (b :: rest)

/-- NEAR account-id validity (the check done by `str::parse::<AccountId>`):
2–64 characters, lowercase alphanumerics and separators `-`, `_`, `.`, with
alphanumeric first and last characters and no two adjacent separators. -/
def isValidAccountId (s : String) : Bool :=
  let cs := s.data
  2 ≤ cs.length && cs.length ≤ 64 && cs.all isAccountChar &&
    (match cs.head? with
     | none => false
     | some c => !isSeparatorChar c) &&
    (match cs.getLast? with
     | none => false
     | some c => !isSeparatorChar c) &&
    noAdjacentSeparators cs

/-- `str::len` of Rust is a byte length. -/
def byteLen (s : String) : Nat := s.utf8ByteSize

/-- Does the string contain the character? (`str::contains`). -/
def strContains (s : String) (c : Char) : Bool := s.data.contains c

/-- Rust `str::strip_prefix`: the remainder after the given leading string,
when it is present. -/
def stripLeading (p s : String) : Option String :=
  if s.data.take p.data.length = p.data then some ⟨s.data.drop p.data.length⟩ else none

/-- Rust `str::starts_with`. -/
def startsWith (p s : String) : Bool := s.data.take p.data.length = p.data

/-! ## Protocol constants (yoctoNEAR) -/

/-- `INTEAR_DEX_STORAGE_DEPOSIT`: 0.005 NEAR. -/
def INTEAR_DEX_STORAGE_DEPOSIT : Nat := 5 * 10 ^ 21

/-- `PLACH_POOL_STORAGE_DEPOSIT`: 0.015 NEAR. -/
def PLACH_POOL_STORAGE_DEPOSIT : Nat := 15 * 10 ^ 21

/-- `FT_STORAGE_DEPOSIT`: 0.00125 NEAR. -/
def FT_STORAGE_DEPOSIT : Nat := 1250 * 10 ^ 18

/-- `OWN_STORAGE_EXPENSES`: 0.01 NEAR. -/
def OWN_STORAGE_EXPENSES : Nat := 10 * 10 ^ 21

/-- `ID_COST`: cost of a standard (long-id) launch, 0.0325 NEAR. -/
def ID_COST : Nat :=
  INTEAR_DEX_STORAGE_DEPOSIT + PLACH_POOL_STORAGE_DEPOSIT + OWN_STORAGE_EXPENSES +
    2 * FT_STORAGE_DEPOSIT

/-- `SHORT_ID_COST`: the scarce-kind premium, 1 NEAR. -/
def SHORT_ID_COST : Nat := 10 ^ 24

/-- `PHANTOM_LIQUIDITY_NEAR`: 300 NEAR. -/
def PHANTOM_LIQUIDITY_NEAR : Nat := 300 * 10 ^ 24

/-- `INTEAR_DEX_CONTRACT_ID`. -/
def INTEAR_DEX_CONTRACT_ID : String := "dex.intear.near"

/-- `PLACH_DEX_ID`. -/
def PLACH_DEX_ID : String := "slimedragon.near/xyk"

/-- `u32::MAX`, the placeholder pool id used for the first-buy swap. -/
def U32_MAX : Nat := 4294967295

/-! ## Data model -/

/-- `LaunchData`: optional supplementary metadata of a launch. -/
structure LaunchData where
  telegram : Option String
  x : Option String
  website : Option String
  description : Option String
  deriving DecidableEq

/-- `LaunchData::validate`: all `require!` checks of the source, as one Bool. -/
def LaunchData.validate (d : LaunchData) : Bool :=
  (d.telegram.all fun url => byteLen url ≤ 50) &&
  (d.telegram.all fun url =>
    optCase (stripLeading "https://t.me/" url) false
      (fun handle => !strContains handle '/')) &&
  (d.x.all fun url => byteLen url ≤ 50) &&
  (d.x.all fun url =>
    optCase (stripLeading "https://x.com/" url) false
      (fun handle => !strContains handle '/')) &&
  (d.website.all fun url => byteLen url ≤ 50) &&
  (d.website.all fun url => startsWith "https://" url) &&
  (d.description.all fun desc => byteLen desc ≤ 200)

/-- `LaunchInfo`: the record persisted per launched identifier. -/
structure LaunchInfo where
  data : LaunchData
  launched_by : String
  launched_at_ns : Nat
  deriving DecidableEq

/-- The persistent contract state: `launch_data` map, `meme_id_counter` map and
the accrued `fees_earned` ledger. -/
structure Contract where
  launch_data : List (String × LaunchInfo)
  meme_id_counter : List (String × Nat)
  fees_earned : Nat
  deriving DecidableEq

/-- `Contract::new`. -/
def Contract.new : Contract := ⟨[], [], 0⟩

/-- Ambient NEAR environment values read by the contract during one call. -/
structure Env where
  current_account_id : String
  predecessor_account_id : String
  block_timestamp : Nat
  storage_byte_cost : Nat
  /-- Incremental durable-storage consumption (bytes) caused by this call,
  i.e. `storage_usage()` after the persists minus `storage_usage()` before. -/
  storage_growth : Nat

/-- The arguments of `launch_token` (the attached deposit is passed
separately). -/
structure LaunchArgs where
  name : String
  symbol : String
  icon : Option String
  decimals : Nat
  total_supply : Nat
  short_id : Bool
  fees : Option (List Nat)
  launch_data : LaunchData
  first_buy : Option Nat
  deriving DecidableEq

/-! ## Workflow operation types (the exchange wire schema) -/

/-- `AssetId`. -/
inductive AssetId where
  | near : AssetId
  | nep141 : String → AssetId
  | nep245 : String → String → AssetId
  | nep171 : String → String → AssetId
  deriving DecidableEq

/-- `SwapRequestAmount`. -/
inductive SwapRequestAmount where
  | exactIn : Nat → SwapRequestAmount
  | exactOut : Nat → SwapRequestAmount
  deriving DecidableEq

/-- `SwapOperationAmount`. -/
inductive SwapOperationAmount where
  | amount : SwapRequestAmount → SwapOperationAmount
  | outputOfLastIn : SwapOperationAmount
  | entireBalanceIn : SwapOperationAmount
  deriving DecidableEq

/-- `WithdrawAmount`. -/
inductive WithdrawAmount where
  | full : Option Nat → WithdrawAmount
  | exact : Nat → WithdrawAmount
  | previousSwapOutput : WithdrawAmount
  deriving DecidableEq

/-- `PoolType`. -/
inductive PoolType where
  | privateLatest : PoolType
  | publicLatest : PoolType
  | launchLatest : Nat → PoolType
  | launchV1 : Nat → PoolType
  | privateV1 : PoolType
  | publicV1 : PoolType
  | privateV2 : PoolType
  | publicV2 : PoolType
  deriving DecidableEq

/-- `FeeConfiguration` (`V1` is unsupported by the source and carries no
data). -/
inductive FeeConfiguration where
  | v1 : FeeConfiguration
  | v2 : List Nat → FeeConfiguration
  deriving DecidableEq

/-- `CreatePoolArgs`: the borsh-encoded argument of the `create_pool` DEX
call, kept structured in the model. -/
structure CreatePoolArgs where
  assets : AssetId × AssetId
  fees : FeeConfiguration
  pool_type : PoolType
  deriving DecidableEq

/-- `Operation`: one entry of the batched `execute_operations` payload. -/
inductive Operation where
  | dexCall : String → String → CreatePoolArgs → List (AssetId × Nat) → Operation
  | withdraw : AssetId → WithdrawAmount → Option String → Option String → Operation
  | swapSimple : String → Nat → AssetId → AssetId → SwapOperationAmount → Option Nat → Operation
  deriving DecidableEq

/-! ## Compiled workflow stages -/

/-- One `storage_deposit` pre-registration call against the new asset. -/
structure StorageDepositCall where
  account_id : String
  registration_only : Bool
  deposit : Nat
  deriving DecidableEq

/-- The provision stage: account creation, funding transfer and `new` call. -/
structure CreateTokenStage where
  account_id : String
  transfer : Nat
  owner_id : String
  total_supply : Nat
  metadata_name : String
  metadata_symbol : String
  metadata_icon : Option String
  metadata_decimals : Nat
  deriving DecidableEq

/-- The custody-transfer stage: pre-registrations followed by
`ft_transfer_call`. -/
structure CustodyStage where
  registrations : List StorageDepositCall
  ft_transfer_receiver : String
  ft_transfer_amount : Nat
  ft_transfer_memo : Option String
  ft_transfer_msg : String
  ft_transfer_deposit : Nat
  deriving DecidableEq

/-- The pool-creation stage: the batched operations and the value attached to
the `execute_operations` call. -/
structure CreatePoolStage where
  operations : List Operation
  attached : Nat
  deriving DecidableEq

/-- Everything `launch_token` produces on success: the identifier and the
compiled workflow stages referenced by the claims. -/
structure LaunchResult where
  account_id : String
  createToken : CreateTokenStage
  custody : CustodyStage
  createPool : CreatePoolStage
  deriving DecidableEq

/-- Placeholder result used by the `theResult` projection on failed calls. -/
def dummyResult : LaunchResult :=
  { account_id := ""
    createToken :=
      { account_id := "", transfer := 0, owner_id := "", total_supply := 0
        metadata_name := "", metadata_symbol := "", metadata_icon := none
        metadata_decimals := 0 }
    custody :=
      { registrations := [], ft_transfer_receiver := "", ft_transfer_amount := 0
        ft_transfer_memo := none, ft_transfer_msg := "", ft_transfer_deposit := 0 }
    createPool := { operations := [], attached := 0 } }

/-- The `create_pool` operation of the pool-creation stage. -/
def createPoolOp (a : LaunchArgs) (account_id : String) : Operation :=
  .dexCall PLACH_DEX_ID "create_pool"
    { assets := (.near, .nep141 account_id)
      fees := .v2 (a.fees.getD [])
      pool_type := .launchV1 PHANTOM_LIQUIDITY_NEAR }
    [(.near, PLACH_POOL_STORAGE_DEPOSIT), (.nep141 account_id, a.total_supply)]

/-- The compiled workflow of a successful launch, mirroring the promise
construction in `launch_token`. -/
def buildResult (env : Env) (a : LaunchArgs) (account_id : String)
    (storage_deposit : Nat) : LaunchResult :=
  { account_id := account_id
    createToken :=
      { account_id := account_id
        transfer := storage_deposit
        owner_id := env.current_account_id
        total_supply := a.total_supply
        metadata_name := a.name
        metadata_symbol := a.symbol
        metadata_icon := a.icon
        metadata_decimals := a.decimals }
    custody :=
      { registrations :=
          [⟨INTEAR_DEX_CONTRACT_ID, true, FT_STORAGE_DEPOSIT⟩,
           ⟨env.predecessor_account_id, true, FT_STORAGE_DEPOSIT⟩]
        ft_transfer_receiver := INTEAR_DEX_CONTRACT_ID
        ft_transfer_amount := a.total_supply
        ft_transfer_memo := none
        ft_transfer_msg := ""
        ft_transfer_deposit := 1 }
    createPool :=
      { operations :=
          [createPoolOp a account_id] ++
            optCase a.first_buy []
              (fun fb =>
                [.swapSimple PLACH_DEX_ID U32_MAX .near (.nep141 account_id)
                   (.amount (.exactIn fb)) none,
                 .withdraw (.nep141 account_id) (.full none)
                   (some env.predecessor_account_id) none])
        attached := optCase a.first_buy 1 (fun fb => fb) } }

/-! ## Errors -/

/-- The panics `launch_token` and `preview_id` can raise. `insufficientFunds`
carries the nominal cost interpolated into the panic message. -/
inductive LaunchError where
  | invalidMetadata : LaunchError
  | arithmeticOverflow : LaunchError
  | insufficientFunds : Nat → LaunchError
  | invalidSymbol : LaunchError
  | invalidTicker : LaunchError
  | identifierTaken : LaunchError
  | longIdTakenBug : LaunchError
  | insufficientStorageDeposit : LaunchError
  deriving DecidableEq

/-! ## The contract operations -/

/-- The nominal launch cost as computed in `launch_token`:
`SHORT_ID_COST.checked_add(ID_COST)` for the scarce kind, `ID_COST`
otherwise. -/
def launchCost (short_id : Bool) : Option Nat :=
  boolCase short_id (some ID_COST) (checkedAdd SHORT_ID_COST ID_COST)

/-- Identifier allocation and `launch_data` insertion (the part of
`launch_token` between the deposit check and the storage measurement). -/
def allocate (c : Contract) (env : Env) (a : LaunchArgs) :
    Except LaunchError (Contract × String) :=
  let symbol_lower := lowerString a.symbol
  boolCase a.short_id
    (let next_meme_id := (alistLookup c.meme_id_counter symbol_lower).getD 0 + 1
     let counter := (alistInsert c.meme_id_counter symbol_lower next_meme_id).2
     let account_id :=
       symbol_lower ++ "-" ++ Nat.repr next_meme_id ++ "." ++ env.current_account_id
     boolCase (isValidAccountId account_id)
       (.error .invalidTicker)
       (let ins := alistInsert c.launch_data account_id
          ⟨a.launch_data, env.predecessor_account_id, env.block_timestamp⟩
        optCase ins.1
          (.ok ({ c with launch_data := ins.2, meme_id_counter := counter }, account_id))
          (fun _ => .error .longIdTakenBug)))
    (boolCase (strContains a.symbol '-')
      (let account_id := symbol_lower ++ "." ++ env.current_account_id
       boolCase (isValidAccountId account_id)
         (.error .invalidTicker)
         (let ins := alistInsert c.launch_data account_id
            ⟨a.launch_data, env.predecessor_account_id, env.block_timestamp⟩
          optCase ins.1
            (.ok ({ c with launch_data := ins.2 }, account_id))
            (fun _ => .error .identifierTaken)))
      (.error .invalidSymbol))

/-- `Contract::launch_token`. A returned error models a panic: the
transaction aborts and the state rolls back to the input contract. -/
def launch_token (c : Contract) (env : Env) (deposit : Nat) (a : LaunchArgs) :
    Contract × Except LaunchError LaunchResult :=
  boolCase a.launch_data.validate
    (c, .error .invalidMetadata)
    (optCase (launchCost a.short_id)
      (c, .error .arithmeticOverflow)
      (fun cost =>
        optCase ((checkedSub deposit cost).bind
            (fun d => checkedSub d (a.first_buy.getD 0)))
          (c, .error (.insufficientFunds cost))
          (fun storage_deposit =>
            exceptCase (allocate c env a)
              (fun e => (c, .error e))
              (fun p =>
                if OWN_STORAGE_EXPENSES / env.storage_byte_cost <
                    env.storage_growth then
                  (c, .error .insufficientStorageDeposit)
                else
                  boolCase a.short_id
                    (p.1, .ok (buildResult env a p.2 storage_deposit))
                    (optCase (checkedAdd p.1.fees_earned SHORT_ID_COST)
                      (c, .error .arithmeticOverflow)
                      (fun f =>
                        ({ p.1 with fees_earned := f },
                         .ok (buildResult env a p.2 storage_deposit))))))))

/-- `Contract::preview_id`. -/
def preview_id (c : Contract) (env : Env) (symbol : String) (short_id : Bool) :
    Except LaunchError String :=
  let symbol_lower := lowerString symbol
  boolCase short_id
    (let next_meme_id := (alistLookup c.meme_id_counter symbol_lower).getD 0 + 1
     let account_id :=
       symbol_lower ++ "-" ++ Nat.repr next_meme_id ++ "." ++ env.current_account_id
     boolCase (isValidAccountId account_id)
       (.error .invalidTicker)
       (.ok account_id))
    (boolCase (strContains symbol '-')
      (let account_id := symbol_lower ++ "." ++ env.current_account_id
       boolCase (isValidAccountId account_id)
         (.error .invalidTicker)
         (optCase (alistLookup c.launch_data account_id)
           (.ok account_id)
           (fun _ => .error .identifierTaken)))
      (.error .invalidSymbol))

/-- `Contract::withdraw_fees`: schedules a transfer of the whole ledger to
`dest` and zeroes the ledger. The second component is the scheduled transfer
(recipient, amount). -/
def withdraw_fees (c : Contract) (dest : String) : Contract × (String × Nat) :=
  ({ c with fees_earned := 0 }, (dest, c.fees_earned))

/-! ## Projections and derived notions used in theorem statements -/

/-- Did the launch succeed? -/
def launchOk (c : Contract) (env : Env) (deposit : Nat) (a : LaunchArgs) : Bool :=
  (launch_token c env deposit a).2.toOption.isSome

/-- The result of a successful launch (placeholder on failure). -/
def theResult (c : Contract) (env : Env) (deposit : Nat) (a : LaunchArgs) :
    LaunchResult :=
  ((launch_token c env deposit a).2.toOption).getD dummyResult

/-- The last-issued sequence number recorded for a (lowercased) symbol,
defaulting to 0. -/
def counterOf (c : Contract) (s : String) : Nat :=
  (alistLookup c.meme_id_counter s).getD 0

/-- The nominal launch cost as a bare number. -/
def costOf (short_id : Bool) : Nat :=
  boolCase short_id ID_COST (SHORT_ID_COST + ID_COST)

/-- The identifier a launch from state `c` would derive. -/
def derivedId (c : Contract) (env : Env) (a : LaunchArgs) : String :=
  boolCase a.short_id
    (lowerString a.symbol ++ "-" ++ Nat.repr (counterOf c (lowerString a.symbol) + 1) ++
      "." ++ env.current_account_id)
    (lowerString a.symbol ++ "." ++ env.current_account_id)

/-- The contract state after a successful launch. -/
def finalState (c : Contract) (env : Env) (a : LaunchArgs) : Contract :=
  { launch_data :=
      (alistInsert c.launch_data (derivedId c env a)
        ⟨a.launch_data, env.predecessor_account_id, env.block_timestamp⟩).2
    meme_id_counter :=
      boolCase a.short_id
        ((alistInsert c.meme_id_counter (lowerString a.symbol)
          (counterOf c (lowerString a.symbol) + 1)).2)
        c.meme_id_counter
    fees_earned :=
      boolCase a.short_id c.fees_earned (c.fees_earned + SHORT_ID_COST) }

/-- One inbound state-mutating contract call. -/
inductive ContractOp where
  | launch : Env → Nat → LaunchArgs → ContractOp
  | withdraw : String → ContractOp

/-- The state reached after one inbound call. -/
def applyOp (c : Contract) : ContractOp → Contract
  | .launch env dep a => (launch_token c env dep a).1
  | .withdraw dest => (withdraw_fees c dest).1

/-- The state reached after a sequence of inbound calls. -/
def runOps (c : Contract) (ops : List ContractOp) : Contract :=
  ops.foldl applyOp c

/-! ## Concrete sample inputs (used by witnesses and counterexamples) -/

/-- Sample environment: realistic protocol values. -/
def env0 : Env :=
  { current_account_id := "t.near"
    predecessor_account_id := "bob.near"
    block_timestamp := 0
    storage_byte_cost := 10 ^ 19
    storage_growth := 100 }

/-- Sample standard-kind launch request: symbol `ABC`, no first buy. -/
def a0 : LaunchArgs :=
  { name := "Token"
    symbol := "ABC"
    icon := none
    decimals := 18
    total_supply := 1000000
    short_id := false
    fees := none
    launch_data := ⟨none, none, none, none⟩
    first_buy := none }


/-- Sample scarce-kind launch request: symbol `XYZ`, no first buy. -/
def aXYZ : LaunchArgs :=
  { name := "Xyz"
    symbol := "XYZ"
    icon := none
    decimals := 18
    total_supply := 500
    short_id := true
    fees := none
    launch_data := ⟨none, none, none, none⟩
    first_buy := none }

/-- Scarce-kind request with a first purchase of 0.01 NEAR. -/
def aXYZfb : LaunchArgs := { aXYZ with first_buy := some (10 ^ 22) }

/-- Standard-kind request with a first purchase of one yocto. -/
def aFb1 : LaunchArgs := { a0 with first_buy := some 1 }

/-- Scarce-kind request with a hyphenated symbol. -/
def aHyph : LaunchArgs := { aXYZ with symbol := "A-B" }

/-- A contract whose fee ledger is saturated at `u128::MAX`. -/
def cOver : Contract := ⟨[], [], U128_MAX⟩

/-- Exact nominal deposit for a scarce launch. -/
def depScarce : Nat := SHORT_ID_COST + ID_COST

/-- Exact deposit for a scarce launch with the 0.01 NEAR first purchase. -/
def depScarceFb : Nat := SHORT_ID_COST + ID_COST + 10 ^ 22

/-- Modelled from the spec (refinement comparison only): `required_deposit`
as §4.2 of the spec words it — one FT registration unit for standard
launches, two when a first purchase is requested, plus the scarce premium
for the scarce kind. The code's cost is `costOf`, which does not depend on
the first-purchase flag. -/
def spec_required_deposit (short_id first_purchase : Bool) : Nat :=
  INTEAR_DEX_STORAGE_DEPOSIT + PLACH_POOL_STORAGE_DEPOSIT + OWN_STORAGE_EXPENSES +
    (boolCase first_purchase 1 2) * FT_STORAGE_DEPOSIT +
    (boolCase short_id 0 SHORT_ID_COST)

/-! ## Helper lemmas -/

theorem alistInsert_fst {α : Type} (l : List (String × α)) (k : String) (v : α) :
    (alistInsert l k v).1 = alistLookup l k := by
  induction l with
  | nil => rfl
  | cons hd tl ih =>
    obtain ⟨k1, v1⟩ := hd
    by_cases h : k1 = k <;> simp [alistInsert, alistLookup, h, ih]

theorem alistLookup_insert_self {α : Type} (l : List (String × α)) (k : String) (v : α) :
    alistLookup (alistInsert l k v).2 k = some v := by
  induction l with
  | nil => simp [alistInsert, alistLookup]
  | cons hd tl ih =>
    obtain ⟨k1, v1⟩ := hd
    by_cases h : k1 = k <;> simp [alistInsert, alistLookup, h, ih]

theorem alistLookup_insert_ne {α : Type} (l : List (String × α)) (k s : String) (v : α)
    (h : s ≠ k) : alistLookup (alistInsert l k v).2 s = alistLookup l s := by
  induction l with
  | nil => simp [alistInsert, alistLookup, Ne.symm h]
  | cons hd tl ih =>
    obtain ⟨k1, v1⟩ := hd
    by_cases h1 : k1 = k
    · subst h1
      simp [alistInsert, alistLookup, Ne.symm h]
    · simp [alistInsert, alistLookup, h1, ih]

theorem checkedSub_chain (dep cost f : Nat) :
    (checkedSub dep cost).bind (fun d => checkedSub d f) =
      if cost + f ≤ dep then some (dep - (cost + f)) else none := by
  unfold checkedSub
  rcases le_or_lt cost dep with h1 | h1
  · rcases le_or_lt f (dep - cost) with h2 | h2
    · have h3 : cost + f ≤ dep := by omega
      have h4 : dep - cost - f = dep - (cost + f) := by omega
      simp [h1, h2, h3, h4]
    · have h3 : ¬ cost + f ≤ dep := by omega
      simp [h1, Nat.not_le.mpr h2, h3]
  · have h3 : ¬ cost + f ≤ dep := by omega
    simp [Nat.not_le.mpr h1, h3]

theorem launchCost_eq (b : Bool) : launchCost b = some (costOf b) := by
  cases b <;> decide

theorem checkedAdd_eq_some (x y z : Nat) (h : checkedAdd x y = some z) :
    x + y ≤ U128_MAX ∧ z = x + y := by
  unfold checkedAdd at h
  by_cases hb : x + y ≤ U128_MAX
  · rw [if_pos hb] at h
    exact ⟨hb, (Option.some_inj.mp h).symm⟩
  · rw [if_neg hb] at h
    cases h

/-- Forward characterization of a successful `allocate`. -/
theorem allocate_ok_elim (c : Contract) (env : Env) (a : LaunchArgs)
    (c1 : Contract) (aid : String) (h : allocate c env a = .ok (c1, aid)) :
    aid = derivedId c env a
    ∧ alistLookup c.launch_data (derivedId c env a) = none
    ∧ (a.short_id = true → strContains a.symbol '-' = false)
    ∧ isValidAccountId (derivedId c env a) = true
    ∧ c1.launch_data = (alistInsert c.launch_data (derivedId c env a)
        ⟨a.launch_data, env.predecessor_account_id, env.block_timestamp⟩).2
    ∧ c1.meme_id_counter = (finalState c env a).meme_id_counter
    ∧ c1.fees_earned = c.fees_earned := by
  by_cases hs : a.short_id = true
  · simp only [allocate, hs, boolCase_true] at h
    cases hc : strContains a.symbol '-' with
    | true =>
      simp only [hc, boolCase_true] at h
      exact Except.noConfusion h
    | false =>
      simp only [hc, boolCase_false] at h
      cases hv : isValidAccountId (lowerString a.symbol ++ "." ++ env.current_account_id) with
      | false =>
        simp only [hv, boolCase_false] at h
        exact Except.noConfusion h
      | true =>
        simp only [hv, boolCase_true, alistInsert_fst] at h
        cases ho : alistLookup c.launch_data
            (lowerString a.symbol ++ "." ++ env.current_account_id) with
        | some w =>
          simp only [ho, optCase_some] at h
          exact Except.noConfusion h
        | none =>
          simp only [ho, optCase_none, Except.ok.injEq, Prod.mk.injEq] at h
          obtain ⟨hc1, haid⟩ := h
          subst hc1
          subst haid
          refine ⟨?_, ?_, ?_, ?_, ?_, ?_, rfl⟩ <;>
            simp [derivedId, finalState, hs, ho, hv]
  · replace hs : a.short_id = false := by simpa using hs
    simp only [allocate, hs, boolCase_false] at h
    cases hv : isValidAccountId (lowerString a.symbol ++ "-" ++
        Nat.repr ((alistLookup c.meme_id_counter (lowerString a.symbol)).getD 0 + 1) ++
        "." ++ env.current_account_id) with
    | false =>
      simp only [hv, boolCase_false] at h
      exact Except.noConfusion h
    | true =>
      simp only [hv, boolCase_true, alistInsert_fst] at h
      cases ho : alistLookup c.launch_data (lowerString a.symbol ++ "-" ++
          Nat.repr ((alistLookup c.meme_id_counter (lowerString a.symbol)).getD 0 + 1) ++
          "." ++ env.current_account_id) with
      | some w =>
        simp only [ho, optCase_some] at h
        exact Except.noConfusion h
      | none =>
        simp only [ho, optCase_none, Except.ok.injEq, Prod.mk.injEq] at h
        obtain ⟨hc1, haid⟩ := h
        subst hc1
        subst haid
        refine ⟨?_, ?_, ?_, ?_, ?_, ?_, rfl⟩ <;>
          simp [derivedId, finalState, counterOf, hs, ho, hv]

/-- Backward characterization: under the stated conditions, `allocate`
succeeds with the derived identifier and the expected state update. -/
theorem allocate_of_conditions (c : Contract) (env : Env) (a : LaunchArgs)
    (hhyph : a.short_id = true → strContains a.symbol '-' = false)
    (hvalid : isValidAccountId (derivedId c env a) = true)
    (hfree : alistLookup c.launch_data (derivedId c env a) = none) :
    allocate c env a = .ok
      (⟨(alistInsert c.launch_data (derivedId c env a)
          ⟨a.launch_data, env.predecessor_account_id, env.block_timestamp⟩).2,
        (finalState c env a).meme_id_counter, c.fees_earned⟩,
       derivedId c env a) := by
  by_cases hs : a.short_id = true
  · simp only [derivedId, hs, boolCase_true] at hvalid hfree ⊢
    simp only [allocate, finalState, derivedId, hs, boolCase_true, hhyph hs,
      boolCase_false, hvalid, alistInsert_fst, hfree, optCase_none]
  · replace hs : a.short_id = false := by simpa using hs
    simp only [derivedId, counterOf, hs, boolCase_false] at hvalid hfree ⊢
    simp only [allocate, finalState, derivedId, counterOf, hs, boolCase_false,
      hvalid, boolCase_true, alistInsert_fst, hfree, optCase_none]

/-- Backward characterization of `launch_token`: under the stated conditions
the launch succeeds, returning `finalState` and the compiled workflow. -/
theorem launch_ok_of_conditions (c : Contract) (env : Env) (dep : Nat) (a : LaunchArgs)
    (hval : a.launch_data.validate = true)
    (hdep : costOf a.short_id + a.first_buy.getD 0 ≤ dep)
    (hhyph : a.short_id = true → strContains a.symbol '-' = false)
    (hvalid : isValidAccountId (derivedId c env a) = true)
    (hfree : alistLookup c.launch_data (derivedId c env a) = none)
    (hstore : env.storage_growth ≤ OWN_STORAGE_EXPENSES / env.storage_byte_cost)
    (hfees : a.short_id = true → c.fees_earned + SHORT_ID_COST ≤ U128_MAX) :
    launch_token c env dep a =
      (finalState c env a,
       .ok (buildResult env a (derivedId c env a)
         (dep - (costOf a.short_id + a.first_buy.getD 0)))) := by
  have halloc := allocate_of_conditions c env a hhyph hvalid hfree
  simp only [launch_token, hval, boolCase_true, launchCost_eq, optCase_some,
    checkedSub_chain]
  simp only [if_pos hdep, optCase_some]
  simp only [halloc, exceptCase_ok]
  simp only [if_neg (Nat.not_lt.mpr hstore)]
  by_cases hs : a.short_id = true
  · have hb : checkedAdd c.fees_earned SHORT_ID_COST =
        some (c.fees_earned + SHORT_ID_COST) := by
      unfold checkedAdd
      rw [if_pos (hfees hs)]
    simp only [hs, boolCase_true, hb, optCase_some]
    simp [finalState, hs]
  · replace hs : a.short_id = false := by simpa using hs
    simp only [hs, boolCase_false]
    simp [finalState, hs]

/-- Forward characterization of a successful `launch_token`: the final state,
the result, and all the conditions a successful launch implies. -/
theorem launch_ok_elim (c : Contract) (env : Env) (dep : Nat) (a : LaunchArgs)
    (h : launchOk c env dep a = true) :
    launch_token c env dep a =
      (finalState c env a,
       .ok (buildResult env a (derivedId c env a)
         (dep - (costOf a.short_id + a.first_buy.getD 0))))
    ∧ a.launch_data.validate = true
    ∧ costOf a.short_id + a.first_buy.getD 0 ≤ dep
    ∧ alistLookup c.launch_data (derivedId c env a) = none
    ∧ (a.short_id = true → strContains a.symbol '-' = false)
    ∧ isValidAccountId (derivedId c env a) = true
    ∧ env.storage_growth ≤ OWN_STORAGE_EXPENSES / env.storage_byte_cost
    ∧ (a.short_id = true → c.fees_earned + SHORT_ID_COST ≤ U128_MAX) := by
  unfold launchOk at h
  by_cases hval : a.launch_data.validate = true
  case neg =>
    replace hval : a.launch_data.validate = false := by simpa using hval
    simp [launch_token, hval, boolCase_false, Except.toOption] at h
  case pos =>
    simp only [launch_token, hval, boolCase_true, launchCost_eq, optCase_some,
      checkedSub_chain] at h
    by_cases hdep : costOf a.short_id + a.first_buy.getD 0 ≤ dep
    · simp only [if_pos hdep, optCase_some] at h
      cases halloc : allocate c env a with
      | error e =>
        simp [halloc, exceptCase_error, Except.toOption] at h
      | ok p =>
        obtain ⟨c1, aid⟩ := p
        obtain ⟨haid, hfree, hhyph, hvalid, hld, hmc, hfe⟩ :=
          allocate_ok_elim c env a c1 aid halloc
        simp only [halloc, exceptCase_ok] at h
        by_cases hstore : OWN_STORAGE_EXPENSES / env.storage_byte_cost <
            env.storage_growth
        · simp [if_pos hstore, Except.toOption] at h
        · simp only [if_neg hstore] at h
          have hfees : a.short_id = true → c.fees_earned + SHORT_ID_COST ≤ U128_MAX := by
            intro hs
            by_contra hover
            have hnone : checkedAdd c1.fees_earned SHORT_ID_COST = none := by
              unfold checkedAdd
              rw [if_neg (by rw [hfe]; exact hover)]
            simp only [hs, boolCase_true, hnone, optCase_none] at h
            simp [Except.toOption] at h
          exact ⟨launch_ok_of_conditions c env dep a hval hdep hhyph hvalid hfree
              (Nat.not_lt.mp hstore) hfees,
            hval, hdep, hfree, hhyph, hvalid, Nat.not_lt.mp hstore, hfees⟩
    · simp [if_neg hdep, optCase_none, Except.toOption] at h

/-- Every failing launch leaves the contract state unchanged (a panic rolls
the transaction back). -/
theorem launch_error_fst (c : Contract) (env : Env) (dep : Nat) (a : LaunchArgs)
    (h : launchOk c env dep a = false) : (launch_token c env dep a).1 = c := by
  unfold launchOk at h
  unfold launch_token at h ⊢
  by_cases hval : a.launch_data.validate = true
  case neg =>
    replace hval : a.launch_data.validate = false := by simpa using hval
    rw [hval, boolCase_false]
  case pos =>
    simp only [hval, boolCase_true, launchCost_eq, optCase_some,
      checkedSub_chain] at h ⊢
    by_cases hdep : costOf a.short_id + a.first_buy.getD 0 ≤ dep
    · simp only [if_pos hdep, optCase_some] at h ⊢
      cases halloc : allocate c env a with
      | error e => rw [exceptCase_error]
      | ok p =>
        rw [halloc] at h
        rw [exceptCase_ok] at h ⊢
        by_cases hstore : OWN_STORAGE_EXPENSES / env.storage_byte_cost <
            env.storage_growth
        · rw [if_pos hstore]
        · rw [if_neg hstore] at h ⊢
          by_cases hs : a.short_id = true
          · rw [hs, boolCase_true] at h ⊢
            by_cases hov : p.1.fees_earned + SHORT_ID_COST ≤ U128_MAX
            · have hb : checkedAdd p.1.fees_earned SHORT_ID_COST =
                  some (p.1.fees_earned + SHORT_ID_COST) := by
                unfold checkedAdd
                rw [if_pos hov]
              rw [hb, optCase_some] at h
              exact Bool.noConfusion h
            · have hb : checkedAdd p.1.fees_earned SHORT_ID_COST = none := by
                unfold checkedAdd
                rw [if_neg hov]
              rw [hb, optCase_none]
          · replace hs : a.short_id = false := by simpa using hs
            rw [hs, boolCase_false] at h
            exact Bool.noConfusion h
    · simp only [if_neg hdep, optCase_none]

/-- A launch attached strictly less than nominal cost plus first-buy amount
panics with `InsufficientFunds`, naming the nominal cost only. -/
theorem launch_insufficient (c : Contract) (env : Env) (dep : Nat) (a : LaunchArgs)
    (hval : a.launch_data.validate = true)
    (hlt : dep < costOf a.short_id + a.first_buy.getD 0) :
    launch_token c env dep a = (c, .error (.insufficientFunds (costOf a.short_id))) := by
  unfold launch_token
  simp only [hval, boolCase_true, launchCost_eq, optCase_some, checkedSub_chain]
  simp only [if_neg (show ¬ costOf a.short_id + a.first_buy.getD 0 ≤ dep by omega),
    optCase_none]

theorem finalState_launch_data (c : Contract) (env : Env) (a : LaunchArgs) :
    (finalState c env a).launch_data =
      (alistInsert c.launch_data (derivedId c env a)
        ⟨a.launch_data, env.predecessor_account_id, env.block_timestamp⟩).2 := rfl

theorem finalState_counter (c : Contract) (env : Env) (a : LaunchArgs) :
    (finalState c env a).meme_id_counter =
      boolCase a.short_id
        ((alistInsert c.meme_id_counter (lowerString a.symbol)
          (counterOf c (lowerString a.symbol) + 1)).2)
        c.meme_id_counter := rfl

theorem finalState_fees (c : Contract) (env : Env) (a : LaunchArgs) :
    (finalState c env a).fees_earned =
      boolCase a.short_id c.fees_earned (c.fees_earned + SHORT_ID_COST) := rfl

/-- On success the first component of `launch_token` is `finalState`. -/
theorem launch_ok_fst (c : Contract) (env : Env) (dep : Nat) (a : LaunchArgs)
    (h : launchOk c env dep a = true) :
    (launch_token c env dep a).1 = finalState c env a := by
  rw [(launch_ok_elim c env dep a h).1]

/-- A successful launch records the derived identifier in `launch_data`. -/
theorem launch_ok_key (c : Contract) (env : Env) (dep : Nat) (a : LaunchArgs)
    (h : launchOk c env dep a = true) :
    alistLookup (launch_token c env dep a).1.launch_data (derivedId c env a) =
      some ⟨a.launch_data, env.predecessor_account_id, env.block_timestamp⟩ := by
  rw [launch_ok_fst c env dep a h, finalState_launch_data]
  exact alistLookup_insert_self _ _ _

/-- Entries of the scarce registry survive any single inbound call. -/
theorem lookup_preserved_applyOp (c : Contract) (op : ContractOp) (k : String)
    (v : LaunchInfo) (h : alistLookup c.launch_data k = some v) :
    alistLookup (applyOp c op).launch_data k = some v := by
  cases op with
  | withdraw dest => exact h
  | launch env dep a =>
    by_cases hok : launchOk c env dep a = true
    · have hfree := (launch_ok_elim c env dep a hok).2.2.2.1
      have hne : k ≠ derivedId c env a := by
        intro heq
        rw [heq, hfree] at h
        exact Option.noConfusion h
      show alistLookup (launch_token c env dep a).1.launch_data k = some v
      rw [launch_ok_fst c env dep a hok, finalState_launch_data,
        alistLookup_insert_ne _ _ _ _ hne]
      exact h
    · replace hok : launchOk c env dep a = false := by simpa using hok
      show alistLookup (launch_token c env dep a).1.launch_data k = some v
      rw [launch_error_fst c env dep a hok]
      exact h

/-- Entries of the scarce registry survive any sequence of inbound calls. -/
theorem lookup_preserved_runOps (ops : List ContractOp) (c : Contract) (k : String)
    (v : LaunchInfo) (h : alistLookup c.launch_data k = some v) :
    alistLookup (runOps c ops).launch_data k = some v := by
  induction ops generalizing c with
  | nil => exact h
  | cons op rest ih => exact ih (applyOp c op) (lookup_preserved_applyOp c op k v h)

/-- The scarce identifier derived for a scarce-kind launch. -/
theorem derivedId_scarce (c : Contract) (env : Env) (a : LaunchArgs)
    (hs : a.short_id = true) :
    derivedId c env a = lowerString a.symbol ++ "." ++ env.current_account_id := by
  unfold derivedId
  rw [hs, boolCase_true]

/-- A scarce-kind launch whose identifier is already registered always fails,
with no state change. -/
theorem launch_scarce_taken (c : Contract) (env : Env) (dep : Nat) (a : LaunchArgs)
    (hs : a.short_id = true)
    (htaken : alistLookup c.launch_data
        (lowerString a.symbol ++ "." ++ env.current_account_id) ≠ none) :
    launchOk c env dep a = false ∧ (launch_token c env dep a).1 = c := by
  have hfail : launchOk c env dep a = false := by
    by_contra hok
    replace hok : launchOk c env dep a = true := by simpa using hok
    have hfree := (launch_ok_elim c env dep a hok).2.2.2.1
    rw [derivedId_scarce c env a hs] at hfree
    exact htaken hfree
  exact ⟨hfail, launch_error_fst c env dep a hfail⟩

/-- A well-formed, well-funded scarce-kind launch whose identifier is already
registered panics with `IdentifierTaken`. -/
theorem launch_scarce_taken_error (c : Contract) (env : Env) (dep : Nat)
    (a : LaunchArgs) (w : LaunchInfo)
    (hs : a.short_id = true)
    (hval : a.launch_data.validate = true)
    (hdep : costOf a.short_id + a.first_buy.getD 0 ≤ dep)
    (hhyph : strContains a.symbol '-' = false)
    (hvalid : isValidAccountId
      (lowerString a.symbol ++ "." ++ env.current_account_id) = true)
    (htaken : alistLookup c.launch_data
        (lowerString a.symbol ++ "." ++ env.current_account_id) = some w) :
    launch_token c env dep a = (c, .error .identifierTaken) := by
  have halloc : allocate c env a = .error .identifierTaken := by
    simp only [allocate, hs, boolCase_true, hhyph, boolCase_false, hvalid,
      alistInsert_fst, htaken, optCase_some]
  unfold launch_token
  simp only [hval, boolCase_true, launchCost_eq, optCase_some, checkedSub_chain]
  simp only [if_pos hdep, optCase_some]
  simp only [halloc, exceptCase_error]

/-- A scarce-kind launch with a hyphenated symbol always fails, with no state
change. -/
theorem launch_hyphen_fails (c : Contract) (env : Env) (dep : Nat) (a : LaunchArgs)
    (hs : a.short_id = true) (hh : strContains a.symbol '-' = true) :
    launchOk c env dep a = false ∧ (launch_token c env dep a).1 = c := by
  have hfail : launchOk c env dep a = false := by
    by_contra hok
    replace hok : launchOk c env dep a = true := by simpa using hok
    have hhyph := (launch_ok_elim c env dep a hok).2.2.2.2.1 hs
    rw [hh] at hhyph
    exact Bool.noConfusion hhyph
  exact ⟨hfail, launch_error_fst c env dep a hfail⟩

/-- A well-formed, well-funded scarce-kind launch with a hyphenated symbol
panics with the hyphen validation error. -/
theorem launch_hyphen_error (c : Contract) (env : Env) (dep : Nat) (a : LaunchArgs)
    (hs : a.short_id = true) (hh : strContains a.symbol '-' = true)
    (hval : a.launch_data.validate = true)
    (hdep : costOf a.short_id + a.first_buy.getD 0 ≤ dep) :
    launch_token c env dep a = (c, .error .invalidSymbol) := by
  have halloc : allocate c env a = .error .invalidSymbol := by
    simp only [allocate, hs, boolCase_true, hh]
  unfold launch_token
  simp only [hval, boolCase_true, launchCost_eq, optCase_some, checkedSub_chain]
  simp only [if_pos hdep, optCase_some]
  simp only [halloc, exceptCase_error]

/-- `preview_id` rejects hyphenated symbols in scarce mode. -/
theorem preview_hyphen (c : Contract) (env : Env) (sym : String)
    (h : strContains sym '-' = true) :
    preview_id c env sym true = .error .invalidSymbol := by
  simp only [preview_id, boolCase_true, h]

/-! ## Claims -/

/-- C1: for every symbol, repeated standard-kind launches yield identifiers
`lowercase(symbol)-1`, `lowercase(symbol)-2`, ... in order: a successful
standard launch returns the identifier built from the lowercased symbol, the
separator `-`, and N = last recorded counter value (default 0) + 1, and
records N; the counter of a symbol is untouched by launches of other
symbols, by scarce launches, and by fee withdrawals, so it is strictly
increasing across this symbol's launches regardless of interleaving. -/
theorem claim_standard_id_sequence (c : Contract) (env : Env) (dep : Nat)
    (a : LaunchArgs) :
    (launchOk c env dep a = true → a.short_id = false →
      (theResult c env dep a).account_id =
        lowerString a.symbol ++ "-" ++
          Nat.repr (counterOf c (lowerString a.symbol) + 1) ++ "." ++
          env.current_account_id
      ∧ counterOf (launch_token c env dep a).1 (lowerString a.symbol) =
          counterOf c (lowerString a.symbol) + 1)
    ∧ (∀ s, s ≠ lowerString a.symbol →
        counterOf (launch_token c env dep a).1 s = counterOf c s)
    ∧ (a.short_id = true →
        ∀ s, counterOf (launch_token c env dep a).1 s = counterOf c s)
    ∧ (∀ dest s, counterOf (withdraw_fees c dest).1 s = counterOf c s) := by
  refine ⟨?_, ?_, ?_, fun dest s => rfl⟩
  · intro hok hstd
    constructor
    · have hres : theResult c env dep a =
          buildResult env a (derivedId c env a)
            (dep - (costOf a.short_id + a.first_buy.getD 0)) := by
        unfold theResult
        rw [(launch_ok_elim c env dep a hok).1]
        rfl
      rw [hres]
      show derivedId c env a = _
      unfold derivedId
      rw [hstd, boolCase_false]
    · rw [launch_ok_fst c env dep a hok]
      unfold counterOf
      rw [finalState_counter, hstd, boolCase_false, alistLookup_insert_self]
      rfl
  · intro s hne
    by_cases hok : launchOk c env dep a = true
    · rw [launch_ok_fst c env dep a hok]
      unfold counterOf
      rw [finalState_counter]
      by_cases hs : a.short_id = true
      · rw [hs, boolCase_true]
      · replace hs : a.short_id = false := by simpa using hs
        rw [hs, boolCase_false, alistLookup_insert_ne _ _ _ _ hne]
    · replace hok : launchOk c env dep a = false := by simpa using hok
      rw [launch_error_fst c env dep a hok]
  · intro hs s
    by_cases hok : launchOk c env dep a = true
    · rw [launch_ok_fst c env dep a hok]
      unfold counterOf
      rw [finalState_counter, hs, boolCase_true]
    · replace hok : launchOk c env dep a = false := by simpa using hok
      rw [launch_error_fst c env dep a hok]

/-- C1 witness: launching `ABC` (standard) on a fresh contract yields
`abc-1.t.near`, sets the counter of `abc` to 1, and leaves other symbols'
counters unchanged. -/
theorem claim_standard_id_sequence_witness :
    (theResult Contract.new env0 ID_COST a0).account_id = "abc-1.t.near"
    ∧ counterOf (launch_token Contract.new env0 ID_COST a0).1 "abc" = 1
    ∧ counterOf (launch_token Contract.new env0 ID_COST a0).1 "zzz" =
        counterOf Contract.new "zzz" := by
  have h := claim_standard_id_sequence Contract.new env0 ID_COST a0
  have h1 := h.1 (by decide) rfl
  exact ⟨h1.1.trans (by decide), h1.2, h.2.1 "zzz" (by decide)⟩

/-- C2: once a scarce-kind launch has succeeded for a symbol, every
subsequent scarce-kind attempt for the same (lowercased) symbol — after any
interleaved sequence of contract calls — fails with no state change; when
the attempt passes the checks that precede allocation, the error is
precisely `IdentifierTaken` (the registry check and insertion are the same
single `alistInsert`, so no interleaving lets two attempts both succeed). -/
theorem claim_scarce_exclusive (c : Contract) (env env2 : Env) (dep dep2 : Nat)
    (a a2 : LaunchArgs) (ops : List ContractOp)
    (hs : a.short_id = true) (hs2 : a2.short_id = true)
    (hsym : lowerString a2.symbol = lowerString a.symbol)
    (hcur : env2.current_account_id = env.current_account_id)
    (hok : launchOk c env dep a = true) :
    launchOk (runOps (launch_token c env dep a).1 ops) env2 dep2 a2 = false
    ∧ (launch_token (runOps (launch_token c env dep a).1 ops) env2 dep2 a2).1 =
        runOps (launch_token c env dep a).1 ops
    ∧ (a2.launch_data.validate = true →
       costOf a2.short_id + a2.first_buy.getD 0 ≤ dep2 →
       strContains a2.symbol '-' = false →
       isValidAccountId
         (lowerString a2.symbol ++ "." ++ env2.current_account_id) = true →
       launch_token (runOps (launch_token c env dep a).1 ops) env2 dep2 a2 =
         (runOps (launch_token c env dep a).1 ops, .error .identifierTaken)) := by
  have hkey : alistLookup (launch_token c env dep a).1.launch_data
      (lowerString a.symbol ++ "." ++ env.current_account_id) =
      some ⟨a.launch_data, env.predecessor_account_id, env.block_timestamp⟩ := by
    have h := launch_ok_key c env dep a hok
    rwa [derivedId_scarce c env a hs] at h
  have hkey2 := lookup_preserved_runOps ops (launch_token c env dep a).1 _ _ hkey
  have hkeyeq : lowerString a2.symbol ++ "." ++ env2.current_account_id =
      lowerString a.symbol ++ "." ++ env.current_account_id := by
    rw [hsym, hcur]
  obtain ⟨hfail, hstate⟩ :=
    launch_scarce_taken (runOps (launch_token c env dep a).1 ops) env2 dep2 a2 hs2
      (by
        intro hcon
        rw [hkeyeq, hkey2] at hcon
        exact Option.noConfusion hcon)
  refine ⟨hfail, hstate, ?_⟩
  intro hval hdep hhyph hvalid
  exact launch_scarce_taken_error (runOps (launch_token c env dep a).1 ops)
    env2 dep2 a2 _ hs2 hval hdep hhyph hvalid
    (by rw [hkeyeq]; exact hkey2)

/-- C2 witness: after launching scarce `XYZ` on a fresh contract, repeating
the identical scarce launch fails with `IdentifierTaken` and changes
nothing. -/
theorem claim_scarce_exclusive_witness :
    launchOk (runOps (launch_token Contract.new env0 depScarce aXYZ).1 [])
        env0 depScarce aXYZ = false
    ∧ launch_token (runOps (launch_token Contract.new env0 depScarce aXYZ).1 [])
        env0 depScarce aXYZ =
      (runOps (launch_token Contract.new env0 depScarce aXYZ).1 [],
       .error .identifierTaken) := by
  have h := claim_scarce_exclusive Contract.new env0 env0 depScarce depScarce
    aXYZ aXYZ [] rfl rfl rfl rfl (by decide)
  exact ⟨h.1, h.2.2 (by decide) (by decide) (by decide) (by decide)⟩

/-- C3 counterexample: the claimed cost formula charges one FT registration
unit for a standard launch without first purchase (0.03125 NEAR); the code
charges two units (`ID_COST` = 0.0325 NEAR), so attaching the claimed amount
fails with `InsufficientFunds` naming `ID_COST`. -/
theorem claim_cost_model_counterexample :
    spec_required_deposit false false ≠ costOf false
    ∧ launch_token Contract.new env0 (spec_required_deposit false false) a0 =
        (Contract.new, .error (.insufficientFunds ID_COST)) := by
  exact ⟨by decide, by rfl⟩

/-- C3 (amended): `required_deposit` is a pure function of the identifier
kind alone — the exchange-registration deposit, the pool-storage deposit,
the own-storage allowance, plus two FT registration units regardless of the
first-purchase flag; the scarce kind adds the fixed premium on top, so the
scarce-kind cost strictly exceeds the standard-kind cost. -/
theorem claim_cost_model :
    costOf false = INTEAR_DEX_STORAGE_DEPOSIT + PLACH_POOL_STORAGE_DEPOSIT +
        OWN_STORAGE_EXPENSES + 2 * FT_STORAGE_DEPOSIT
    ∧ costOf true = SHORT_ID_COST + (INTEAR_DEX_STORAGE_DEPOSIT +
        PLACH_POOL_STORAGE_DEPOSIT + OWN_STORAGE_EXPENSES + 2 * FT_STORAGE_DEPOSIT)
    ∧ costOf false < costOf true
    ∧ launchCost false = some (costOf false)
    ∧ launchCost true = some (costOf true) := by
  refine ⟨by decide, by decide, by decide, by decide, by decide⟩

/-- C4 counterexample: a standard launch with no first purchase still
pre-registers the requester (`bob.near`) in the custody stage, refuting
"only if a first purchase is requested". -/
theorem claim_custody_counterexample :
    a0.first_buy = none
    ∧ (theResult Contract.new env0 ID_COST a0).custody.registrations.map
        (fun r => r.account_id) = [INTEAR_DEX_CONTRACT_ID, "bob.near"] := by
  exact ⟨rfl, by decide⟩

/-- C4 (amended): in the compiled custody stage the exchange's account and
the requester's account are both always pre-registered (registration-only,
one FT storage deposit each) regardless of the first-purchase flag, and the
entire minted supply is transferred to the exchange via `ft_transfer_call`
with an empty `msg`. -/
theorem claim_custody_stage (c : Contract) (env : Env) (dep : Nat)
    (a : LaunchArgs) (hok : launchOk c env dep a = true) :
    (theResult c env dep a).custody.registrations =
      [⟨INTEAR_DEX_CONTRACT_ID, true, FT_STORAGE_DEPOSIT⟩,
       ⟨env.predecessor_account_id, true, FT_STORAGE_DEPOSIT⟩]
    ∧ (theResult c env dep a).custody.ft_transfer_receiver = INTEAR_DEX_CONTRACT_ID
    ∧ (theResult c env dep a).custody.ft_transfer_amount = a.total_supply
    ∧ (theResult c env dep a).custody.ft_transfer_msg = ""
    ∧ (theResult c env dep a).custody.ft_transfer_memo = none := by
  have hres : theResult c env dep a =
      buildResult env a (derivedId c env a)
        (dep - (costOf a.short_id + a.first_buy.getD 0)) := by
    unfold theResult
    rw [(launch_ok_elim c env dep a hok).1]
    rfl
  rw [hres]
  exact ⟨rfl, rfl, rfl, rfl, rfl⟩

/-- C4 witness: the amended custody-stage facts at a concrete standard
launch. -/
theorem claim_custody_stage_witness :
    (theResult Contract.new env0 ID_COST a0).custody.registrations =
      [⟨INTEAR_DEX_CONTRACT_ID, true, FT_STORAGE_DEPOSIT⟩,
       ⟨"bob.near", true, FT_STORAGE_DEPOSIT⟩]
    ∧ (theResult Contract.new env0 ID_COST a0).custody.ft_transfer_amount = 1000000
    ∧ (theResult Contract.new env0 ID_COST a0).custody.ft_transfer_msg = "" := by
  have h := claim_custody_stage Contract.new env0 ID_COST a0 (by decide)
  exact ⟨h.1, h.2.2.1, h.2.2.2.1⟩

/-- C5 counterexample: for a request with a first-purchase amount of one
yocto, attaching exactly the required (nominal) deposit does not succeed —
it fails with `InsufficientFunds` — refuting the claim for such requests. -/
theorem claim_deposit_boundary_counterexample :
    aFb1.first_buy = some 1
    ∧ launch_token Contract.new env0 (costOf aFb1.short_id) aFb1 =
        (Contract.new, .error (.insufficientFunds ID_COST)) := by
  exact ⟨rfl, by rfl⟩

/-- C5 (amended): attaching exactly the nominal kind cost plus the requested
first-purchase amount (zero when absent) succeeds, and attaching one yocto
less fails with `InsufficientFunds` (naming the nominal cost) and mutates no
state. -/
theorem claim_deposit_boundary (c : Contract) (env : Env) (a : LaunchArgs)
    (hval : a.launch_data.validate = true)
    (hhyph : a.short_id = true → strContains a.symbol '-' = false)
    (hvalid : isValidAccountId (derivedId c env a) = true)
    (hfree : alistLookup c.launch_data (derivedId c env a) = none)
    (hstore : env.storage_growth ≤ OWN_STORAGE_EXPENSES / env.storage_byte_cost)
    (hfees : a.short_id = true → c.fees_earned + SHORT_ID_COST ≤ U128_MAX) :
    launchOk c env (costOf a.short_id + a.first_buy.getD 0) a = true
    ∧ launch_token c env (costOf a.short_id + a.first_buy.getD 0 - 1) a =
        (c, .error (.insufficientFunds (costOf a.short_id))) := by
  constructor
  · unfold launchOk
    rw [launch_ok_of_conditions c env _ a hval (le_refl _) hhyph hvalid hfree
      hstore hfees]
    rfl
  · apply launch_insufficient c env _ a hval
    have h1 : 0 < costOf a.short_id := by
      by_cases hs : a.short_id = true
      · rw [hs]
        decide
      · replace hs : a.short_id = false := by simpa using hs
        rw [hs]
        decide
    omega

/-- C5 witness: the amended boundary at a concrete scarce launch with a
first purchase. -/
theorem claim_deposit_boundary_witness :
    launchOk Contract.new env0 (costOf aXYZfb.short_id + aXYZfb.first_buy.getD 0)
        aXYZfb = true
    ∧ launch_token Contract.new env0
        (costOf aXYZfb.short_id + aXYZfb.first_buy.getD 0 - 1) aXYZfb =
      (Contract.new, .error (.insufficientFunds (costOf aXYZfb.short_id))) := by
  exact claim_deposit_boundary Contract.new env0 aXYZfb (by decide)
    (fun _ => by decide) (by decide) (by decide) (by decide) (fun _ => by decide)

/-- C6: the compiled pool-creation stage is exactly one `create_pool`
operation when no first-purchase amount is supplied, and exactly three
operations — `create_pool`, an exact-input swap of the first-purchase amount
from the native asset into the new asset with no minimum-output constraint,
then a full-balance withdrawal of the new asset to the original requester —
when one is supplied; the attached value equals the first-purchase amount
when present and one yocto otherwise. -/
theorem claim_pool_stage (c : Contract) (env : Env) (dep : Nat) (a : LaunchArgs)
    (hok : launchOk c env dep a = true) :
    (a.first_buy = none →
      (theResult c env dep a).createPool.operations =
        [createPoolOp a (theResult c env dep a).account_id]
      ∧ (theResult c env dep a).createPool.attached = 1)
    ∧ (∀ fb, a.first_buy = some fb →
      (theResult c env dep a).createPool.operations =
        [createPoolOp a (theResult c env dep a).account_id,
         .swapSimple PLACH_DEX_ID U32_MAX .near
           (.nep141 (theResult c env dep a).account_id)
           (.amount (.exactIn fb)) none,
         .withdraw (.nep141 (theResult c env dep a).account_id) (.full none)
           (some env.predecessor_account_id) none]
      ∧ (theResult c env dep a).createPool.attached = fb) := by
  have hres : theResult c env dep a =
      buildResult env a (derivedId c env a)
        (dep - (costOf a.short_id + a.first_buy.getD 0)) := by
    unfold theResult
    rw [(launch_ok_elim c env dep a hok).1]
    rfl
  rw [hres]
  constructor
  · intro hnone
    simp only [buildResult, hnone, optCase_none]
    exact ⟨rfl, trivial⟩
  · intro fb hfb
    simp only [buildResult, hfb, optCase_some]
    exact ⟨rfl, trivial⟩

/-- C6 witness: one operation and one-yocto attachment for the standard
`ABC` launch without first purchase; three operations and the first-purchase
attachment for the scarce `XYZ` launch with one. -/
theorem claim_pool_stage_witness :
    ((theResult Contract.new env0 ID_COST a0).createPool.operations =
        [createPoolOp a0 (theResult Contract.new env0 ID_COST a0).account_id]
      ∧ (theResult Contract.new env0 ID_COST a0).createPool.attached = 1)
    ∧ ((theResult Contract.new env0 depScarceFb aXYZfb).createPool.operations =
        [createPoolOp aXYZfb (theResult Contract.new env0 depScarceFb aXYZfb).account_id,
         .swapSimple PLACH_DEX_ID U32_MAX .near
           (.nep141 (theResult Contract.new env0 depScarceFb aXYZfb).account_id)
           (.amount (.exactIn (10 ^ 22))) none,
         .withdraw (.nep141 (theResult Contract.new env0 depScarceFb aXYZfb).account_id)
           (.full none) (some env0.predecessor_account_id) none]
      ∧ (theResult Contract.new env0 depScarceFb aXYZfb).createPool.attached =
          10 ^ 22) := by
  constructor
  · exact (claim_pool_stage Contract.new env0 ID_COST a0 (by decide)).1 rfl
  · exact (claim_pool_stage Contract.new env0 depScarceFb aXYZfb (by decide)).2
      (10 ^ 22) rfl

/-- C7: a successful scarce-kind launch increases the fee ledger by exactly
the scarce premium, a successful standard-kind launch leaves it unchanged,
no launch ever decreases it (so only `withdraw_fees` zeroes it; as a `Nat`
it is never negative), and the accrual is a checked addition: when it would
exceed `u128::MAX` the whole call aborts with no state change. -/
theorem claim_fee_ledger (c : Contract) (env : Env) (dep : Nat) (a : LaunchArgs) :
    (launchOk c env dep a = true →
      (a.short_id = true →
        (launch_token c env dep a).1.fees_earned = c.fees_earned + SHORT_ID_COST)
      ∧ (a.short_id = false →
        (launch_token c env dep a).1.fees_earned = c.fees_earned))
    ∧ c.fees_earned ≤ (launch_token c env dep a).1.fees_earned
    ∧ (a.short_id = true → U128_MAX < c.fees_earned + SHORT_ID_COST →
        launchOk c env dep a = false ∧ (launch_token c env dep a).1 = c) := by
  refine ⟨?_, ?_, ?_⟩
  · intro hok
    rw [launch_ok_fst c env dep a hok, finalState_fees]
    constructor
    · intro hs
      rw [hs, boolCase_true]
    · intro hs
      rw [hs, boolCase_false]
  · by_cases hok : launchOk c env dep a = true
    · rw [launch_ok_fst c env dep a hok, finalState_fees]
      by_cases hs : a.short_id = true
      · rw [hs, boolCase_true]
        omega
      · replace hs : a.short_id = false := by simpa using hs
        rw [hs, boolCase_false]
    · replace hok : launchOk c env dep a = false := by simpa using hok
      rw [launch_error_fst c env dep a hok]
  · intro hs hover
    have hfail : launchOk c env dep a = false := by
      by_contra hok
      replace hok : launchOk c env dep a = true := by simpa using hok
      have hb := (launch_ok_elim c env dep a hok).2.2.2.2.2.2.2 hs
      omega
    exact ⟨hfail, launch_error_fst c env dep a hfail⟩

/-- C7 witness: the scarce `XYZ` launch accrues exactly the premium on a
fresh contract; with the ledger at `u128::MAX` the same launch aborts with
no state change; a standard launch accrues nothing. -/
theorem claim_fee_ledger_witness :
    (launch_token Contract.new env0 depScarce aXYZ).1.fees_earned = SHORT_ID_COST
    ∧ (launch_token Contract.new env0 ID_COST a0).1.fees_earned = 0
    ∧ launchOk cOver env0 depScarce aXYZ = false
    ∧ (launch_token cOver env0 depScarce aXYZ).1 = cOver := by
  have h1 := (claim_fee_ledger Contract.new env0 depScarce aXYZ).1 (by decide)
  have h2 := (claim_fee_ledger Contract.new env0 ID_COST a0).1 (by decide)
  have h3 := (claim_fee_ledger cOver env0 depScarce aXYZ).2.2 rfl (by decide)
  exact ⟨h1.1 rfl, h2.2 rfl, h3.1, h3.2⟩

/-- C8: one `withdraw_fees` invocation schedules a transfer of exactly the
accrued ledger amount to the given recipient and zeroes the ledger, leaving
all other state untouched; an immediately repeated invocation transfers
exactly zero. -/
theorem claim_withdraw_drains (c : Contract) (dest dest2 : String) :
    (withdraw_fees c dest).2 = (dest, c.fees_earned)
    ∧ (withdraw_fees c dest).1.fees_earned = 0
    ∧ (withdraw_fees c dest).1.launch_data = c.launch_data
    ∧ (withdraw_fees c dest).1.meme_id_counter = c.meme_id_counter
    ∧ (withdraw_fees (withdraw_fees c dest).1 dest2).2 = (dest2, 0) :=
  ⟨rfl, rfl, rfl, rfl, rfl⟩

/-- C9: a scarce-kind allocation attempt for a symbol containing the
reserved separator `-` never succeeds: the launch always fails with no state
change — with exactly the hyphen validation error once the metadata and
deposit checks pass — and the read-only preview fails with the same
validation error. -/
theorem claim_hyphen_rejected (c : Contract) (env : Env) (dep : Nat)
    (a : LaunchArgs) (sym : String)
    (hs : a.short_id = true) (hh : strContains a.symbol '-' = true)
    (hsym : strContains sym '-' = true) :
    launchOk c env dep a = false
    ∧ (launch_token c env dep a).1 = c
    ∧ (a.launch_data.validate = true →
        costOf a.short_id + a.first_buy.getD 0 ≤ dep →
        launch_token c env dep a = (c, .error .invalidSymbol))
    ∧ preview_id c env sym true = .error .invalidSymbol := by
  obtain ⟨h1, h2⟩ := launch_hyphen_fails c env dep a hs hh
  exact ⟨h1, h2, fun hval hdep => launch_hyphen_error c env dep a hs hh hval hdep,
    preview_hyphen c env sym hsym⟩

/-- C9 witness: the scarce launch of symbol `A-B` fails with the hyphen
validation error and no state change, and so does its preview. -/
theorem claim_hyphen_rejected_witness :
    launchOk Contract.new env0 depScarce aHyph = false
    ∧ launch_token Contract.new env0 depScarce aHyph =
        (Contract.new, .error .invalidSymbol)
    ∧ preview_id Contract.new env0 "A-B" true = .error .invalidSymbol := by
  have h := claim_hyphen_rejected Contract.new env0 depScarce aHyph "A-B" rfl
    (by decide) (by decide)
  exact ⟨h.1, h.2.2.1 (by decide) (by decide), h.2.2.2⟩

/-- C10: with a first-purchase amount `fb > 0`, attaching exactly the
nominal kind cost fails with `InsufficientFunds` whose message names only
the nominal cost; the launch succeeds only when the attached value is at
least nominal cost plus `fb`; and on success the leftover (attached minus
nominal cost minus `fb`) is the amount transferred to fund the new asset
account. -/
theorem claim_first_buy_deposit (c : Contract) (env : Env) (a : LaunchArgs)
    (fb : Nat) (hfb : a.first_buy = some fb) (hpos : 0 < fb)
    (hval : a.launch_data.validate = true) :
    launch_token c env (costOf a.short_id) a =
      (c, .error (.insufficientFunds (costOf a.short_id)))
    ∧ (∀ dep, launchOk c env dep a = true → costOf a.short_id + fb ≤ dep)
    ∧ (∀ dep, launchOk c env dep a = true →
        (theResult c env dep a).createToken.transfer =
          dep - (costOf a.short_id + fb)) := by
  have hg : a.first_buy.getD 0 = fb := by
    rw [hfb]
    rfl
  refine ⟨?_, ?_, ?_⟩
  · apply launch_insufficient c env _ a hval
    omega
  · intro dep hok
    have hdep := (launch_ok_elim c env dep a hok).2.2.1
    omega
  · intro dep hok
    have hres : theResult c env dep a =
        buildResult env a (derivedId c env a)
          (dep - (costOf a.short_id + a.first_buy.getD 0)) := by
      unfold theResult
      rw [(launch_ok_elim c env dep a hok).1]
      rfl
    rw [hres]
    show dep - (costOf a.short_id + a.first_buy.getD 0) = _
    rw [hg]

/-- C10 witness: for the scarce `XYZ` launch with a 0.01 NEAR first
purchase, attaching only the nominal cost fails naming the nominal cost,
and attaching nominal cost plus the purchase succeeds with zero leftover
transferred. -/
theorem claim_first_buy_deposit_witness :
    launch_token Contract.new env0 (costOf aXYZfb.short_id) aXYZfb =
      (Contract.new, .error (.insufficientFunds (costOf aXYZfb.short_id)))
    ∧ (theResult Contract.new env0 depScarceFb aXYZfb).createToken.transfer =
        depScarceFb - (costOf aXYZfb.short_id + 10 ^ 22) := by
  have h := claim_first_buy_deposit Contract.new env0 aXYZfb (10 ^ 22) rfl
    (by decide) (by decide)
  exact ⟨h.1, h.2.2 depScarceFb (by decide)⟩

end Launch
